import Mathlib

/-!
Verification of lkm-develop: syscall-table hook module and toy character device

A shallow embedding of

* `src/syscall_hooking/syscall_hook_module.c` (`lkm_init`, `lkm_exit`,
  `disable_wp`, `enable_wp`, `get_sct_address`, `hook_syscall_read`), and
* `src/charDevice/chardev.c` (`device_open`, `device_release`,
  `device_write`, `device_read`).

Kernel memory is a map from byte addresses to 64-bit words, `cr0` is a 64-bit
register value, function pointers are addresses.  Every store to memory and
every write to `cr0` is also appended to an event log so that statements of
the form "no write happens" or "one write per barrier" can be expressed.
-/

namespace SyscallHook

/-! ## Constants taken from kernel headers -/

/-- Value of `EFAULT` in `include/uapi/asm-generic/errno-base.h`. -/
def EFAULT : Int := 14

/-- The literal `0x10000` used by `disable_wp` and `enable_wp`: bit 16 of `cr0`. -/
def WP_MASK : Nat := 0x10000

/-- The C expression `~0x10000`: `0x10000` has type `int`, so its complement is
the `int` value `-65537`, which the `&` with an `unsigned long` converts to
`unsigned long` modulo `2^64`. -/
def NOT_WP_MASK : Nat := (((-65537 : Int)) % (2 ^ 64 : Int)).toNat

/-! ## Data model -/

/-- Effects of the module that are visible outside of it, in program order. -/
inductive Event where
  | register_kprobe (res : Int)
  | unregister_kprobe
  | write_cr0 (val : Nat)
  | store (addr : Nat) (val : Nat)
  deriving DecidableEq, Repr

/-- What the build and the running kernel fix for the module: the syscall number
`__NR_read` (from `<asm/unistd.h>`), the address at which `hook_syscall_read` is
loaded, and the result of calling the kernel routine found at a given address
with a given `pt_regs` pointer. -/
structure Platform where
  __NR_read : Nat
  hook_syscall_read : Nat
  text : Nat → Nat → Int

/-- Outcome of the two kernel services `get_sct_address` relies on:
the return value of `register_kprobe(&kp)` and the function that `kp.addr`
points to afterwards (`kallsyms_lookup_name`). -/
structure Kallsyms where
  register_kprobe : Int
  kallsyms_lookup_name : String → Nat

/-- Machine state seen by the module: kernel memory (64-bit words by byte
address), the `cr0` register, the two static variables `__sct_ptr` and
`old_syscall_read`, and the event log. -/
structure State where
  mem : Nat → Nat
  cr0 : Nat
  __sct_ptr : Nat
  old_syscall_read : Nat
  log : List Event

/-- Memory after a 64-bit store of `v` at address `a`. -/
def poke (m : Nat → Nat) (a v : Nat) : Nat → Nat :=
  fun x => if x = a then v else m x

/-- Byte address of `base[i]` for `unsigned long *base`. -/
def slot (base i : Nat) : Nat := base + 8 * i

/-! ## Write protection -/

/-- Models `write_forced_cr0(new_val)`: `mov new_val, %cr0`. -/
def write_forced_cr0 (new_val : Nat) (s : State) : State :=
  { s with cr0 := new_val, log := s.log ++ [Event.write_cr0 new_val] }

/-- Models `disable_wp()`: `write_forced_cr0(read_cr0() & (~0x10000))`. -/
def disable_wp (s : State) : State :=
  write_forced_cr0 (s.cr0 &&& NOT_WP_MASK) s

/-- Models `enable_wp()`: `write_forced_cr0(read_cr0() | 0x10000)`. -/
def enable_wp (s : State) : State :=
  write_forced_cr0 (s.cr0 ||| WP_MASK) s

/-! ## Locating the table -/

/-- Models `get_sct_address()`: registers the kprobe; on a non-zero result returns
`NULL`; otherwise takes `kp.addr`, unregisters the kprobe and returns
`kallsyms_lookup_name("sys_call_table")`. -/
def get_sct_address (K : Kallsyms) (s : State) : Nat × State :=
  let s1 : State := { s with log := s.log ++ [Event.register_kprobe K.register_kprobe] }
  if K.register_kprobe ≠ 0 then
    (0, s1)
  else
    let s2 : State := { s1 with log := s1.log ++ [Event.unregister_kprobe] }
    (K.kallsyms_lookup_name "sys_call_table", s2)

/-- The store `__sct_ptr[__NR_read] = v`. -/
def store_slot (P : Platform) (v : Nat) (s : State) : State :=
  { s with
    mem := poke s.mem (slot s.__sct_ptr P.__NR_read) v,
    log := s.log ++ [Event.store (slot s.__sct_ptr P.__NR_read) v] }

/-! ## Module entry points -/

/-- Models `lkm_init()`: the assignment `__sct_ptr = get_sct_address()` inside the
condition, the `-EFAULT` return when it is `NULL`, otherwise the capture of
`__sct_ptr[__NR_read]` into `old_syscall_read` and the store of
`hook_syscall_read` between `disable_wp()` and `enable_wp()`.  Returns the `int`
result and the state on return. -/
def lkm_init (P : Platform) (K : Kallsyms) (s : State) : Int × State :=
  let r := get_sct_address K s
  let s1 : State := { r.2 with __sct_ptr := r.1 }
  if s1.__sct_ptr = 0 then
    (-EFAULT, s1)
  else
    let s2 : State := { s1 with old_syscall_read := s1.mem (slot s1.__sct_ptr P.__NR_read) }
    let s3 := disable_wp s2
    let s4 := store_slot P P.hook_syscall_read s3
    let s5 := enable_wp s4
    (0, s5)

/-- Models `lkm_exit()`: the store of `old_syscall_read` into
`__sct_ptr[__NR_read]` between `disable_wp()` and `enable_wp()`. -/
def lkm_exit (P : Platform) (s : State) : State :=
  let s1 := disable_wp s
  let s2 := store_slot P s1.old_syscall_read s1
  enable_wp s2

/-! ## Calls through function pointers -/

/-- Result of calling the function at address `f` with argument `regs`.  The
address of `hook_syscall_read` runs that function's body,
`return old_syscall_read(regs);`; any other address is a kernel routine.  The
first argument bounds the depth of nested calls; `none` means the bound was
reached. -/
def call (P : Platform) : Nat → State → Nat → Nat → Option Int
  | 0, _, _, _ => none
  | fuel + 1, s, f, regs =>
    if f = P.hook_syscall_read then call P fuel s s.old_syscall_read regs
    else some (P.text f regs)

/-- Models `hook_syscall_read(regs)`: `return old_syscall_read(regs);`. -/
def hook_syscall_read (P : Platform) (fuel : Nat) (s : State) (regs : Nat) : Option Int :=
  call P fuel s s.old_syscall_read regs

/-- A system call `read` dispatched by the kernel through entry `__NR_read` of the
table at address `sct`. -/
def dispatch_read (P : Platform) (fuel : Nat) (sct : Nat) (s : State) (regs : Nat) :
    Option Int :=
  call P fuel s (s.mem (slot sct P.__NR_read)) regs

/-- The address `get_sct_address` obtains from `kallsyms_lookup_name` when the
kprobe registration succeeds. -/
def resolved (K : Kallsyms) : Nat := K.kallsyms_lookup_name "sys_call_table"

/-- The state `s` with the value `first` placed in the first entry of the table at
the resolved address. -/
def with_first_entry (K : Kallsyms) (first : Nat) (s : State) : State :=
  { s with mem := poke s.mem (slot (resolved K) 0) first }

/-! ## A concrete machine used to instantiate the theorems -/

/-- Address of the kernel's own `read` handler in the sample machine. -/
def sample_sys_read : Nat := 0xffffffff81300000

/-- Address of `sys_call_table` in the sample machine. -/
def sample_table : Nat := 0xffffffff82000300

/-- A sample platform: x86-64 numbering (`__NR_read = 0`), the module loaded in
the module area, and a kernel `read` handler that returns its argument. -/
def P0 : Platform :=
  { __NR_read := 0
    hook_syscall_read := 0xffffffffc0a00000
    text := fun f regs => if f = sample_sys_read then (regs : Int) else -38 }

/-- Symbol resolution that succeeds and yields `sample_table`. -/
def K0 : Kallsyms :=
  { register_kprobe := 0
    kallsyms_lookup_name := fun name => if name = "sys_call_table" then sample_table else 0 }

/-- Symbol resolution whose kprobe registration fails with `-EINVAL`. -/
def K_noprobe : Kallsyms :=
  { register_kprobe := -22
    kallsyms_lookup_name := fun _ => 0 }

/-- A freshly loaded module on the sample machine: both statics are zero, the
table entry for `read` points at the kernel handler, every other word is zero
(so is the table's first entry when `__NR_read` is not `0`), `cr0` has `WP` set. -/
def s0 : State :=
  { mem := fun a => if a = sample_table then sample_sys_read else 0
    cr0 := 0x80050033
    __sct_ptr := 0
    old_syscall_read := 0
    log := [] }

/-- A machine on which the address returned for "sys_call_table" points at memory
that holds only zero words: its first entry is the null pointer, which is not
the address of any code. -/
def s_zeroed : State :=
  { mem := fun _ => 0
    cr0 := 0x80050033
    __sct_ptr := 0
    old_syscall_read := 0
    log := [] }

/-! ## The static kprobe across calls -/

/-- Value of `EINVAL` in `include/uapi/asm-generic/errno-base.h`. -/
def EINVAL : Int := 22

/-- Value of `ENOENT` in `include/uapi/asm-generic/errno-base.h`. -/
def ENOENT : Int := 2

/-- The services of the running kernel that `get_sct_address` goes through: the
address of the symbol "kallsyms_lookup_name" named by `kp.symbol_name` (0 when
the kernel has no such symbol), the result of arming a probe at that address,
and the function found there. -/
structure Kernel where
  probe_addr : Nat
  arm_result : Int
  kallsyms_lookup_name : String → Nat

/-- Models the kernel routine `register_kprobe(&kp)` of `kernel/kprobes.c` for the
module's static `kp`, whose `symbol_name` is set by its initialiser.  Takes the
current `kp.addr` and returns the result together with the `kp.addr` left behind:
a kprobe that has both `symbol_name` and `addr` set is refused with `-EINVAL`; a
symbol that is not found gives `-ENOENT`; otherwise `kp.addr` receives the
address of the symbol and the result is that of arming the probe. -/
def register_kprobe (Kn : Kernel) (kp_addr : Nat) : Int × Nat :=
  if kp_addr ≠ 0 then
    (-EINVAL, kp_addr)
  else if Kn.probe_addr = 0 then
    (-ENOENT, kp_addr)
  else
    (Kn.arm_result, Kn.probe_addr)

/-- The module with its static `kp`: the state of `State` and the field `kp.addr`,
which is `NULL` when the module is loaded, is filled by `register_kprobe`, is
read at `kallsyms_lookup_name = kp.addr`, and is never cleared by the module
(`unregister_kprobe` does not clear it either). -/
structure Module where
  st : State
  kp_addr : Nat

/-- What `register_kprobe(&kp)` returns and what `kp.addr` points to for a call
made on kernel `Kn` with the given `kp.addr`. -/
def kallsyms_at (Kn : Kernel) (kp_addr : Nat) : Kallsyms :=
  { register_kprobe := (register_kprobe Kn kp_addr).1
    kallsyms_lookup_name := Kn.kallsyms_lookup_name }

/-- Models `lkm_init()` together with the effect of its `register_kprobe(&kp)` on
the static `kp`. -/
def lkm_init_kp (P : Platform) (Kn : Kernel) (m : Module) : Int × Module :=
  ((lkm_init P (kallsyms_at Kn m.kp_addr) m.st).1,
   { st := (lkm_init P (kallsyms_at Kn m.kp_addr) m.st).2
     kp_addr := (register_kprobe Kn m.kp_addr).2 })

/-- The module after `n` further calls of `lkm_init()` in a row. -/
def lkm_init_again (P : Platform) (Kn : Kernel) : Nat → Module → Module
  | 0, m => m
  | n + 1, m => lkm_init_again P Kn n (lkm_init_kp P Kn m).2

/-- A sample kernel: "kallsyms_lookup_name" is found, the probe arms, and
"sys_call_table" resolves to `sample_table`. -/
def Kn0 : Kernel :=
  { probe_addr := 0xffffffff81150000
    arm_result := 0
    kallsyms_lookup_name := fun name => if name = "sys_call_table" then sample_table else 0 }

/-- The freshly loaded module on the sample machine: `kp.addr` is `NULL`. -/
def m0 : Module :=
  { st := s0
    kp_addr := 0 }

end SyscallHook

namespace CharDev

/-! ## Constants of `chardev.c` and of the kernel headers it uses -/

/-- The macro `SUCCESS`. -/
def SUCCESS : Int := 0

/-- The macro `BUFFER_LEN`, the size of `device_data_buffer`. -/
def BUFFER_LEN : Int := 255

/-- Value of `EBUSY` in `include/uapi/asm-generic/errno-base.h`. -/
def EBUSY : Int := 16

/-- Value of `EFAULT` in `include/uapi/asm-generic/errno-base.h`. -/
def EFAULT : Int := 14

/-- Enumerator `CDEV_NOT_USED`. -/
def CDEV_NOT_USED : Int := 0

/-- Enumerator `CDEV_EXCLUSIVE_OPEN`. -/
def CDEV_EXCLUSIVE_OPEN : Int := 1

/-! ## Open and release -/

/-- The static state touched by `device_open` and `device_release`: the atomic
flag `already_open`, the function-local static `counter` of `device_open`, and
the use count of the module moved by `try_module_get` and `module_put`. -/
structure Device where
  already_open : Int
  counter : Int
  module_refs : Int

/-- Models `atomic_cmpxchg(v, old, new)` as one indivisible step: returns the value
found in `v` and the value left in `v`, which is `new` exactly when the value
found was `old`. -/
def atomic_cmpxchg (v old new : Int) : Int × Int :=
  (v, if v = old then new else v)

/-- Models `device_open`: the compare-and-exchange on `already_open`, `-EBUSY` when
it returns non-zero, otherwise `try_module_get`, `counter++` and `SUCCESS`. -/
def device_open (d : Device) : Int × Device :=
  let r := atomic_cmpxchg d.already_open CDEV_NOT_USED CDEV_EXCLUSIVE_OPEN
  let d1 : Device := { d with already_open := r.2 }
  if r.1 ≠ 0 then
    (-EBUSY, d1)
  else
    (SUCCESS, { d1 with module_refs := d1.module_refs + 1, counter := d1.counter + 1 })

/-- Models `device_release`: `atomic_set(&already_open, CDEV_NOT_USED)`,
`module_put` and `SUCCESS`. -/
def device_release (d : Device) : Int × Device :=
  (SUCCESS, { d with already_open := CDEV_NOT_USED, module_refs := d.module_refs - 1 })

/-- The two file operations of a sequence of opens and releases. -/
inductive Call where
  | open
  | release
  deriving DecidableEq, Repr

/-- The device together with the number of successful opens that have not been
released yet. -/
structure Session where
  dev : Device
  held : Nat

/-- One call of a sequence: runs the file operation on the device and updates the
number of successful opens not yet released. -/
def step (x : Session) : Call → Session
  | Call.open =>
    { dev := (device_open x.dev).2
      held := if (device_open x.dev).1 = 0 then x.held + 1 else x.held }
  | Call.release =>
    { dev := (device_release x.dev).2
      held := x.held - 1 }

/-- Runs a sequence of calls. -/
def run (x : Session) (cs : List Call) : Session :=
  cs.foldl step x

/-- Holds when every `release` of the sequence is called for a previously
successful open that has not been released yet. -/
def release_follows_open (x : Session) : List Call → Bool
  | [] => true
  | Call.open :: cs => release_follows_open (step x Call.open) cs
  | Call.release :: cs => decide (0 < x.held) && release_follows_open (step x Call.release) cs

/-- The device as the module is loaded: `already_open` is `ATOMIC_INIT(CDEV_NOT_USED)`,
`counter` is 0, nothing is open. -/
def loaded : Session :=
  { dev := { already_open := CDEV_NOT_USED, counter := 0, module_refs := 0 }
    held := 0 }

/-! ## Read and write -/

/-- Conversion of a signed value to an unsigned 64-bit integer. -/
def toU64 (x : Int) : Nat := (x % (2 ^ 64 : Int)).toNat

/-- Conversion of an unsigned 64-bit integer to `ssize_t` (signed 64 bits). -/
def toS64 (n : Nat) : Int :=
  if n % 2 ^ 64 < 2 ^ 63 then ((n % 2 ^ 64 : Nat) : Int)
  else ((n % 2 ^ 64 : Nat) : Int) - (2 ^ 64 : Int)

/-- The kernel macro `min(x, y)` at the types of its use in `device_write` and
`device_read`: `x` is `BUFFER_LEN - *offset` of type `loff_t` (`long long`) and
`y` is of type `size_t` (`unsigned long`, 64 bits).  The macro expands to
`x < y ? x : y` on copies that keep the operand types, so the usual arithmetic
conversions turn both operands, and the result, into unsigned 64-bit values. -/
def min_loff_size (x : Int) (y : Nat) : Nat :=
  if toU64 x < y % 2 ^ 64 then toU64 x else y % 2 ^ 64

/-- The local `len` of `device_write` and `device_read`:
`ssize_t len = min(BUFFER_LEN - *offset, count)`. -/
def transfer_len (offset : Int) (count : Nat) : Int :=
  toS64 (min_loff_size (BUFFER_LEN - offset) count)

/-- Models `copy_from_user(dst, src, n)`: kernel bytes are indexed relative to
`&device_data_buffer[0]` (indices outside `[0, BUFFER_LEN)` are the kernel memory
around the buffer), user bytes relative to `user_buffer`, `none` being an
unreadable byte.  Copies byte by byte from index `i` on until `n` bytes are done
or a byte cannot be read, and returns the number of bytes not copied. -/
def copy_from_user (dst : Int) (src : Nat → Option Nat) :
    Nat → Nat → (Int → Nat) → Nat × (Int → Nat)
  | 0, _, kmem => (0, kmem)
  | n + 1, i, kmem =>
    match src i with
    | none => (n + 1, kmem)
    | some b =>
      copy_from_user dst src n (i + 1) (fun x => if x = dst + (i : Int) then b else kmem x)

/-- Models `copy_to_user(dst, src, n)`: user memory maps an index relative to
`user_buffer` to its byte, `none` being an unwritable byte.  Copies byte by byte
from index `i` on until `n` bytes are done or a byte cannot be written, and
returns the number of bytes not copied. -/
def copy_to_user (kmem : Int → Nat) (src : Int) :
    Nat → Nat → (Nat → Option Nat) → Nat × (Nat → Option Nat)
  | 0, _, user => (0, user)
  | n + 1, i, user =>
    match user i with
    | none => (n + 1, user)
    | some _ =>
      copy_to_user kmem src n (i + 1) (fun x => if x = i then some (kmem (src + (i : Int))) else user x)

/-- Result of a read or write call: the returned `ssize_t`, the kernel memory
around `device_data_buffer`, the user buffer, and the file offset left in
`*offset`. -/
structure Io where
  ret : Int
  kmem : Int → Nat
  user : Nat → Option Nat
  offset : Int

/-- Models `device_write(file, user_buffer, bytes_to_write, offset)`. -/
def device_write (kmem : Int → Nat) (user_buffer : Nat → Option Nat) (bytes_to_write : Nat)
    (offset : Int) : Io :=
  let len := transfer_len offset bytes_to_write
  if len ≤ 0 then
    { ret := 0, kmem := kmem, user := user_buffer, offset := offset }
  else
    let r := copy_from_user offset user_buffer len.toNat 0 kmem
    if r.1 ≠ 0 then
      { ret := -EFAULT, kmem := r.2, user := user_buffer, offset := offset }
    else
      { ret := len, kmem := r.2, user := user_buffer, offset := offset + len }

/-- Models `device_read(file, user_buffer, bytes_to_read, offset)`. -/
def device_read (kmem : Int → Nat) (user_buffer : Nat → Option Nat) (bytes_to_read : Nat)
    (offset : Int) : Io :=
  let len := transfer_len offset bytes_to_read
  if len ≤ 0 then
    { ret := 0, kmem := kmem, user := user_buffer, offset := offset }
  else
    let r := copy_to_user kmem offset len.toNat 0 user_buffer
    if r.1 ≠ 0 then
      { ret := -EFAULT, kmem := kmem, user := r.2, offset := offset }
    else
      { ret := len, kmem := kmem, user := r.2, offset := offset + len }

/-- Sample kernel memory: the 255 bytes of `device_data_buffer` hold 0, the bytes
around it hold `0xAA`. -/
def kmem_sample : Int → Nat :=
  fun i => if 0 ≤ i ∧ i < BUFFER_LEN then 0 else 0xAA

/-- Sample user buffer: every byte is accessible and holds `0x41`. -/
def user_sample : Nat → Option Nat :=
  fun _ => some 0x41

end CharDev

namespace SyscallHook

/-! ## Basic facts about the embedding -/

theorem NOT_WP_MASK_eq : NOT_WP_MASK = 0xFFFFFFFFFFFEFFFF := by decide

theorem poke_same (m : Nat → Nat) (a v : Nat) : poke m a v a = v := by
  simp [poke]

theorem poke_other (m : Nat → Nat) (a v x : Nat) (h : x ≠ a) : poke m a v x = m x := by
  simp [poke, h]

theorem poke_poke (m : Nat → Nat) (a v w : Nat) : poke (poke m a v) a w = poke m a w := by
  funext x
  by_cases h : x = a <;> simp [poke, h]

theorem poke_self (m : Nat → Nat) (a : Nat) : poke m a (m a) = m := by
  funext x
  by_cases h : x = a <;> simp [poke, h]

theorem slot_injective (base i j : Nat) (h : slot base i = slot base j) : i = j := by
  unfold slot at h
  omega

/-- State on return from `lkm_init` when the kprobe registers and the lookup is
non-null. -/
theorem lkm_init_success (P : Platform) (K : Kallsyms) (s : State)
    (hreg : K.register_kprobe = 0) (hsct : resolved K ≠ 0) :
    lkm_init P K s =
      (0, { mem := poke s.mem (slot (resolved K) P.__NR_read) P.hook_syscall_read
            cr0 := (s.cr0 &&& NOT_WP_MASK) ||| WP_MASK
            __sct_ptr := resolved K
            old_syscall_read := s.mem (slot (resolved K) P.__NR_read)
            log := s.log ++ [Event.register_kprobe 0, Event.unregister_kprobe,
              Event.write_cr0 (s.cr0 &&& NOT_WP_MASK),
              Event.store (slot (resolved K) P.__NR_read) P.hook_syscall_read,
              Event.write_cr0 ((s.cr0 &&& NOT_WP_MASK) ||| WP_MASK)] }) := by
  unfold resolved at hsct
  simp [lkm_init, get_sct_address, hreg, hsct, resolved, enable_wp, disable_wp, store_slot,
    write_forced_cr0]

/-- State on return from `lkm_exit`. -/
theorem lkm_exit_eq (P : Platform) (s : State) :
    lkm_exit P s =
      { mem := poke s.mem (slot s.__sct_ptr P.__NR_read) s.old_syscall_read
        cr0 := (s.cr0 &&& NOT_WP_MASK) ||| WP_MASK
        __sct_ptr := s.__sct_ptr
        old_syscall_read := s.old_syscall_read
        log := s.log ++ [Event.write_cr0 (s.cr0 &&& NOT_WP_MASK),
          Event.store (slot s.__sct_ptr P.__NR_read) s.old_syscall_read,
          Event.write_cr0 ((s.cr0 &&& NOT_WP_MASK) ||| WP_MASK)] } := by
  simp [lkm_exit, enable_wp, disable_wp, store_slot, write_forced_cr0]

/-! ## Bit 16 of `cr0` -/

theorem testBit_NOT_WP_MASK (i : Nat) :
    NOT_WP_MASK.testBit i = (decide (i < 64) && decide (i ≠ 16)) := by
  have h : NOT_WP_MASK = (2 ^ 64 - 1) ^^^ 2 ^ 16 := by decide
  rw [h, Nat.testBit_xor, Nat.testBit_two_pow_sub_one, Nat.testBit_two_pow]
  by_cases h1 : i < 64 <;> by_cases h2 : 16 = i <;> simp [h1, h2] <;> omega

theorem testBit_WP_MASK (i : Nat) : WP_MASK.testBit i = decide (i = 16) := by
  have h : WP_MASK = 2 ^ 16 := by decide
  rw [h, Nat.testBit_two_pow]
  by_cases h2 : 16 = i
  · simp [h2]
  · have h3 : ¬ i = 16 := fun h => h2 h.symm
    simp [h2, h3]

theorem testBit_high (c i : Nat) (h64 : c < 2 ^ 64) (hi : 64 ≤ i) : c.testBit i = false := by
  apply Nat.testBit_lt_two_pow
  exact lt_of_lt_of_le h64 (Nat.pow_le_pow_right (by decide) hi)

/-- Clearing bit 16 and setting it again gives back a 64-bit value that had it set. -/
theorem wp_toggle (c : Nat) (h64 : c < 2 ^ 64) (hwp : c.testBit 16 = true) :
    (c &&& NOT_WP_MASK) ||| WP_MASK = c := by
  apply Nat.eq_of_testBit_eq
  intro i
  rw [Nat.testBit_or, Nat.testBit_and, testBit_NOT_WP_MASK, testBit_WP_MASK]
  by_cases h1 : i < 64
  · by_cases h2 : i = 16
    · subst h2; simp [hwp]
    · simp [h1, h2]
  · have := testBit_high c i h64 (by omega)
    simp [h1, this]
    omega

/-! ## Install and restore -/

theorem lkm_exit_lkm_init_mem (P : Platform) (K : Kallsyms) (s : State)
    (hreg : K.register_kprobe = 0) (hsct : resolved K ≠ 0) :
    (lkm_exit P (lkm_init P K s).2).mem = s.mem := by
  rw [lkm_init_success P K s hreg hsct, lkm_exit_eq]
  simp only [poke_poke, poke_self]

/-- C1: for every table state and every initial `cr0`, `lkm_init` on a path where
symbol resolution succeeds followed at once by `lkm_exit` leaves
`table[__NR_read]` equal to its value before `lkm_init`, and the whole memory
(hence the whole table) equal to its contents before the install. -/
theorem init_then_exit_restores (P : Platform) (K : Kallsyms) (s : State)
    (hreg : K.register_kprobe = 0) (hsct : resolved K ≠ 0) :
    (lkm_exit P (lkm_init P K s).2).mem (slot (resolved K) P.__NR_read)
        = s.mem (slot (resolved K) P.__NR_read)
      ∧ (lkm_exit P (lkm_init P K s).2).mem = s.mem := by
  have hmem := lkm_exit_lkm_init_mem P K s hreg hsct
  exact ⟨by rw [hmem], hmem⟩

/-- Instance of C1 on the sample machine: the hypotheses hold there and the conclusion follows. -/
theorem init_then_exit_restores_witness :
    K0.register_kprobe = 0 ∧ resolved K0 ≠ 0
      ∧ (lkm_exit P0 (lkm_init P0 K0 s0).2).mem (slot (resolved K0) P0.__NR_read)
          = s0.mem (slot (resolved K0) P0.__NR_read)
      ∧ (lkm_exit P0 (lkm_init P0 K0 s0).2).mem = s0.mem :=
  ⟨rfl, by decide, init_then_exit_restores P0 K0 s0 rfl (by decide)⟩

/-- C2: whenever `get_sct_address` returns a non-null table, `lkm_init` returns 0,
`old_syscall_read` holds the value `table[__NR_read]` had before the call,
`table[__NR_read]` holds `hook_syscall_read`, and every other slot (indeed every
other word of memory) is unchanged. -/
theorem lkm_init_installs (P : Platform) (K : Kallsyms) (s : State)
    (hres : (get_sct_address K s).1 ≠ 0) :
    (lkm_init P K s).1 = 0
      ∧ (lkm_init P K s).2.old_syscall_read
          = s.mem (slot (get_sct_address K s).1 P.__NR_read)
      ∧ (lkm_init P K s).2.mem (slot (get_sct_address K s).1 P.__NR_read)
          = P.hook_syscall_read
      ∧ (∀ i, i ≠ P.__NR_read →
          (lkm_init P K s).2.mem (slot (get_sct_address K s).1 i)
            = s.mem (slot (get_sct_address K s).1 i))
      ∧ (∀ a, a ≠ slot (get_sct_address K s).1 P.__NR_read →
          (lkm_init P K s).2.mem a = s.mem a) := by
  have hreg : K.register_kprobe = 0 := by
    by_contra h
    exact hres (by simp [get_sct_address, h])
  have hget : (get_sct_address K s).1 = resolved K := by
    simp [get_sct_address, hreg, resolved]
  rw [hget] at hres ⊢
  rw [lkm_init_success P K s hreg hres]
  refine ⟨rfl, rfl, poke_same _ _ _, ?_, ?_⟩
  · intro i hi
    exact poke_other _ _ _ _ (fun h => hi (slot_injective _ _ _ h))
  · intro a ha
    exact poke_other _ _ _ _ ha

/-- Instance of C2 on the sample machine: the hypotheses hold there and the conclusion follows. -/
theorem lkm_init_installs_witness :
    (get_sct_address K0 s0).1 ≠ 0
      ∧ (lkm_init P0 K0 s0).1 = 0
      ∧ (lkm_init P0 K0 s0).2.old_syscall_read
          = s0.mem (slot (get_sct_address K0 s0).1 P0.__NR_read)
      ∧ (lkm_init P0 K0 s0).2.mem (slot (get_sct_address K0 s0).1 P0.__NR_read)
          = P0.hook_syscall_read
      ∧ (∀ i, i ≠ P0.__NR_read →
          (lkm_init P0 K0 s0).2.mem (slot (get_sct_address K0 s0).1 i)
            = s0.mem (slot (get_sct_address K0 s0).1 i))
      ∧ (∀ a, a ≠ slot (get_sct_address K0 s0).1 P0.__NR_read →
          (lkm_init P0 K0 s0).2.mem a = s0.mem a) :=
  ⟨by decide, lkm_init_installs P0 K0 s0 (by decide)⟩

/-! ## Failed symbol resolution -/

/-- C5: when symbol resolution fails (`register_kprobe` returns non-zero, or the
lookup returns 0 for "sys_call_table"), `get_sct_address` returns `NULL` and
`lkm_init` returns `-EFAULT` with no partial install: memory is untouched,
`old_syscall_read` keeps its value, `cr0` keeps its value, and the only events
are the kprobe registration and, if it succeeded, its removal: no store and no
write to `cr0`. -/
theorem lkm_init_resolution_failure (P : Platform) (K : Kallsyms) (s : State)
    (hfail : K.register_kprobe ≠ 0 ∨ K.kallsyms_lookup_name "sys_call_table" = 0) :
    (get_sct_address K s).1 = 0
      ∧ (lkm_init P K s).1 = -EFAULT
      ∧ (lkm_init P K s).2.mem = s.mem
      ∧ (lkm_init P K s).2.old_syscall_read = s.old_syscall_read
      ∧ (lkm_init P K s).2.cr0 = s.cr0
      ∧ (lkm_init P K s).2.log = s.log ++
          (if K.register_kprobe ≠ 0 then [Event.register_kprobe K.register_kprobe]
           else [Event.register_kprobe K.register_kprobe, Event.unregister_kprobe]) := by
  by_cases hreg : K.register_kprobe = 0
  · have hz : K.kallsyms_lookup_name "sys_call_table" = 0 := by
      rcases hfail with h | h
      · exact absurd hreg h
      · exact h
    simp [lkm_init, get_sct_address, hreg, hz]
  · simp [lkm_init, get_sct_address, hreg]

/-- Instance of C5 on the sample machine: the hypotheses hold there and the conclusion follows. -/
theorem lkm_init_resolution_failure_witness :
    (K_noprobe.register_kprobe ≠ 0 ∨ K_noprobe.kallsyms_lookup_name "sys_call_table" = 0)
      ∧ (get_sct_address K_noprobe s0).1 = 0
      ∧ (lkm_init P0 K_noprobe s0).1 = -EFAULT
      ∧ (lkm_init P0 K_noprobe s0).2.mem = s0.mem
      ∧ (lkm_init P0 K_noprobe s0).2.old_syscall_read = s0.old_syscall_read
      ∧ (lkm_init P0 K_noprobe s0).2.cr0 = s0.cr0
      ∧ (lkm_init P0 K_noprobe s0).2.log = s0.log ++
          (if K_noprobe.register_kprobe ≠ 0
           then [Event.register_kprobe K_noprobe.register_kprobe]
           else [Event.register_kprobe K_noprobe.register_kprobe, Event.unregister_kprobe]) :=
  ⟨Or.inl (by decide), lkm_init_resolution_failure P0 K_noprobe s0 (Or.inl (by decide))⟩

/-! ## Write protection is restored -/

/-- C6: for every 64-bit `cr0` with the `WP` bit (bit 16) set and every outcome of
symbol resolution, `cr0` on return from `lkm_init` and on return from `lkm_exit`
equals the initial `cr0`; `disable_wp` clears exactly bit 16 and `enable_wp` sets
exactly bit 16; and each of `lkm_init` (when resolution succeeds) and `lkm_exit`
performs exactly one store, placed between the `cr0` write that clears `WP` and
the `cr0` write that sets it again. -/
theorem wp_restored_on_every_path (P : Platform) (K : Kallsyms) (s : State)
    (h64 : s.cr0 < 2 ^ 64) (hwp : s.cr0.testBit 16 = true) :
    (lkm_init P K s).2.cr0 = s.cr0
      ∧ (lkm_exit P s).cr0 = s.cr0
      ∧ (∀ i, (disable_wp s).cr0.testBit i = (decide (i ≠ 16) && s.cr0.testBit i))
      ∧ (∀ i, (enable_wp s).cr0.testBit i = (decide (i = 16) || s.cr0.testBit i))
      ∧ (K.register_kprobe = 0 → resolved K ≠ 0 →
          (lkm_init P K s).2.log = s.log ++
            [Event.register_kprobe 0, Event.unregister_kprobe,
             Event.write_cr0 (disable_wp s).cr0,
             Event.store (slot (resolved K) P.__NR_read) P.hook_syscall_read,
             Event.write_cr0 s.cr0])
      ∧ (K.register_kprobe ≠ 0 ∨ resolved K = 0 →
          ∀ e ∈ (lkm_init P K s).2.log, e ∈ s.log
            ∨ e = Event.register_kprobe K.register_kprobe ∨ e = Event.unregister_kprobe)
      ∧ (lkm_exit P s).log = s.log ++
            [Event.write_cr0 (disable_wp s).cr0,
             Event.store (slot s.__sct_ptr P.__NR_read) s.old_syscall_read,
             Event.write_cr0 s.cr0] := by
  have htog := wp_toggle s.cr0 h64 hwp
  refine ⟨?_, ?_, ?_, ?_, ?_, ?_, ?_⟩
  · by_cases hreg : K.register_kprobe = 0
    · by_cases hsct : resolved K = 0
      · unfold resolved at hsct
        simp [lkm_init, get_sct_address, hreg, hsct]
      · rw [lkm_init_success P K s hreg hsct]
        exact htog
    · simp [lkm_init, get_sct_address, hreg]
  · rw [lkm_exit_eq]
    exact htog
  · intro i
    show (s.cr0 &&& NOT_WP_MASK).testBit i = _
    rw [Nat.testBit_and, testBit_NOT_WP_MASK]
    by_cases h1 : i < 64
    · by_cases h2 : i = 16 <;> simp [h1, h2]
    · have := testBit_high s.cr0 i h64 (by omega)
      simp [h1, this]
  · intro i
    show (s.cr0 ||| WP_MASK).testBit i = _
    rw [Nat.testBit_or, testBit_WP_MASK, Bool.or_comm]
  · intro hreg hsct
    rw [lkm_init_success P K s hreg hsct]
    simp only [htog]
    rfl
  · intro hfail e he
    by_cases hreg : K.register_kprobe = 0
    · have hz : K.kallsyms_lookup_name "sys_call_table" = 0 := by
        rcases hfail with h | h
        · exact absurd hreg h
        · exact h
      simp [lkm_init, get_sct_address, hreg, hz] at he
      rcases he with he | he | he
      · exact Or.inl he
      · exact Or.inr (Or.inl (by rw [he, hreg]))
      · exact Or.inr (Or.inr he)
    · simp [lkm_init, get_sct_address, hreg] at he
      rcases he with he | he
      · exact Or.inl he
      · exact Or.inr (Or.inl he)
  · rw [lkm_exit_eq]
    simp only [htog]
    rfl

/-- Instance of C6 on the sample machine: the hypotheses hold there and the conclusion follows. -/
theorem wp_restored_on_every_path_witness :
    s0.cr0 < 2 ^ 64 ∧ s0.cr0.testBit 16 = true
      ∧ (lkm_init P0 K0 s0).2.cr0 = s0.cr0
      ∧ (lkm_exit P0 s0).cr0 = s0.cr0
      ∧ (∀ i, (disable_wp s0).cr0.testBit i = (decide (i ≠ 16) && s0.cr0.testBit i))
      ∧ (∀ i, (enable_wp s0).cr0.testBit i = (decide (i = 16) || s0.cr0.testBit i))
      ∧ (K0.register_kprobe = 0 → resolved K0 ≠ 0 →
          (lkm_init P0 K0 s0).2.log = s0.log ++
            [Event.register_kprobe 0, Event.unregister_kprobe,
             Event.write_cr0 (disable_wp s0).cr0,
             Event.store (slot (resolved K0) P0.__NR_read) P0.hook_syscall_read,
             Event.write_cr0 s0.cr0])
      ∧ (K0.register_kprobe ≠ 0 ∨ resolved K0 = 0 →
          ∀ e ∈ (lkm_init P0 K0 s0).2.log, e ∈ s0.log
            ∨ e = Event.register_kprobe K0.register_kprobe ∨ e = Event.unregister_kprobe)
      ∧ (lkm_exit P0 s0).log = s0.log ++
            [Event.write_cr0 (disable_wp s0).cr0,
             Event.store (slot s0.__sct_ptr P0.__NR_read) s0.old_syscall_read,
             Event.write_cr0 s0.cr0] :=
  ⟨by decide, by decide, wp_restored_on_every_path P0 K0 s0 (by decide) (by decide)⟩

/-! ## Repeated install and repeated restore -/


/-- A successful `lkm_init` started from an unused `kp`, found the symbol, armed
the probe and resolved a non-null table. -/
theorem lkm_init_kp_ok (P : Platform) (Kn : Kernel) (m : Module)
    (hok : (lkm_init_kp P Kn m).1 = 0) :
    m.kp_addr = 0 ∧ Kn.probe_addr ≠ 0 ∧ Kn.arm_result = 0
      ∧ Kn.kallsyms_lookup_name "sys_call_table" ≠ 0 := by
  by_cases h1 : m.kp_addr = 0
  · by_cases h2 : Kn.probe_addr = 0
    · simp [lkm_init_kp, lkm_init, get_sct_address, kallsyms_at, register_kprobe, h1, h2,
        ENOENT, EFAULT] at hok
    · by_cases h3 : Kn.arm_result = 0
      · by_cases h4 : Kn.kallsyms_lookup_name "sys_call_table" = 0
        · simp [lkm_init_kp, lkm_init, get_sct_address, kallsyms_at, register_kprobe, h1, h2,
            h3, h4, EFAULT] at hok
        · exact ⟨h1, h2, h3, h4⟩
      · simp [lkm_init_kp, lkm_init, get_sct_address, kallsyms_at, register_kprobe, h1, h2,
          h3, EFAULT] at hok
  · simp [lkm_init_kp, lkm_init, get_sct_address, kallsyms_at, register_kprobe, h1,
      EINVAL, EFAULT] at hok

/-- State of `State` after a successful `lkm_init` of the module. -/
theorem lkm_init_kp_success (P : Platform) (Kn : Kernel) (m : Module)
    (hok : (lkm_init_kp P Kn m).1 = 0) :
    (lkm_init_kp P Kn m).2.kp_addr = Kn.probe_addr
      ∧ (lkm_init_kp P Kn m).2.st.mem
          = poke m.st.mem (slot (Kn.kallsyms_lookup_name "sys_call_table") P.__NR_read)
              P.hook_syscall_read
      ∧ (lkm_init_kp P Kn m).2.st.old_syscall_read
          = m.st.mem (slot (Kn.kallsyms_lookup_name "sys_call_table") P.__NR_read) := by
  obtain ⟨h1, h2, h3, h4⟩ := lkm_init_kp_ok P Kn m hok
  have hreg : (kallsyms_at Kn m.kp_addr).register_kprobe = 0 := by
    simp [kallsyms_at, register_kprobe, h1, h2, h3]
  have hsct : resolved (kallsyms_at Kn m.kp_addr) ≠ 0 := h4
  refine ⟨?_, ?_, ?_⟩
  · simp [lkm_init_kp, register_kprobe, h1, h2]
  · show (lkm_init P (kallsyms_at Kn m.kp_addr) m.st).2.mem = _
    rw [lkm_init_success P _ m.st hreg hsct]
    rfl
  · show (lkm_init P (kallsyms_at Kn m.kp_addr) m.st).2.old_syscall_read = _
    rw [lkm_init_success P _ m.st hreg hsct]
    rfl

/-- Once `kp.addr` is set, `lkm_init` fails at `register_kprobe` and touches
neither the memory nor `old_syscall_read` nor `cr0` nor `kp.addr`. -/
theorem lkm_init_kp_used (P : Platform) (Kn : Kernel) (m : Module) (h : m.kp_addr ≠ 0) :
    (lkm_init_kp P Kn m).1 = -EFAULT
      ∧ (lkm_init_kp P Kn m).2.st.mem = m.st.mem
      ∧ (lkm_init_kp P Kn m).2.st.old_syscall_read = m.st.old_syscall_read
      ∧ (lkm_init_kp P Kn m).2.st.cr0 = m.st.cr0
      ∧ (lkm_init_kp P Kn m).2.kp_addr = m.kp_addr
      ∧ (lkm_init_kp P Kn m).2.st.log = m.st.log ++ [Event.register_kprobe (-EINVAL)] := by
  simp [lkm_init_kp, lkm_init, get_sct_address, kallsyms_at, register_kprobe, h, EINVAL]

theorem lkm_init_again_used (P : Platform) (Kn : Kernel) (n : Nat) :
    ∀ m : Module, m.kp_addr ≠ 0 →
      (lkm_init_again P Kn n m).st.mem = m.st.mem
        ∧ (lkm_init_again P Kn n m).st.old_syscall_read = m.st.old_syscall_read := by
  induction n with
  | zero => intro m _; exact ⟨rfl, rfl⟩
  | succ n ih =>
    intro m h
    obtain ⟨_, hmem, hold, _, hkp, _⟩ := lkm_init_kp_used P Kn m h
    have := ih (lkm_init_kp P Kn m).2 (by rw [hkp]; exact h)
    exact ⟨by rw [← hmem]; exact this.1, by rw [← hold]; exact this.2⟩

/-- C4 (as stated, refuted): on the sample machine the second `lkm_exit` after one
install is not rejected: it appends a write of `cr0` with `WP` cleared, a store
into `table[__NR_read]` and a write of `cr0` with `WP` set to the event log. -/
theorem second_lkm_exit_writes_again :
    (lkm_exit P0 (lkm_exit P0 (lkm_init P0 K0 s0).2)).log
      = (lkm_exit P0 (lkm_init P0 K0 s0).2).log ++
          [Event.write_cr0 0x80040033,
           Event.store sample_table sample_sys_read,
           Event.write_cr0 0x80050033] := by
  rw [lkm_exit_eq P0 (lkm_exit P0 (lkm_init P0 K0 s0).2), lkm_exit_eq P0 (lkm_init P0 K0 s0).2,
    lkm_init_success P0 K0 s0 rfl (by decide)]
  decide

/-- C4 (amended): `lkm_exit` keeps no record of a previous restore.  After one
install the first `lkm_exit` writes the saved original back into
`table[__NR_read]`; a second `lkm_exit` performs the same sequence again (a `cr0`
write clearing `WP`, one store of `old_syscall_read` into the slot, a `cr0` write
setting `WP`), which leaves the memory as the first call left it. -/
theorem second_lkm_exit_repeats (P : Platform) (K : Kallsyms) (s : State)
    (hreg : K.register_kprobe = 0) (hsct : resolved K ≠ 0) :
    (lkm_exit P (lkm_init P K s).2).mem (slot (resolved K) P.__NR_read)
        = s.mem (slot (resolved K) P.__NR_read)
      ∧ (lkm_exit P (lkm_exit P (lkm_init P K s).2)).mem
          = (lkm_exit P (lkm_init P K s).2).mem
      ∧ (lkm_exit P (lkm_exit P (lkm_init P K s).2)).log
          = (lkm_exit P (lkm_init P K s).2).log ++
              [Event.write_cr0 (disable_wp (lkm_exit P (lkm_init P K s).2)).cr0,
               Event.store (slot (resolved K) P.__NR_read)
                 (s.mem (slot (resolved K) P.__NR_read)),
               Event.write_cr0 (enable_wp (disable_wp (lkm_exit P (lkm_init P K s).2))).cr0] := by
  rw [lkm_exit_eq P (lkm_exit P (lkm_init P K s).2), lkm_exit_eq P (lkm_init P K s).2,
    lkm_init_success P K s hreg hsct]
  refine ⟨poke_same _ _ _, ?_, rfl⟩
  show poke (poke _ _ _) _ _ = poke _ _ _
  rw [poke_poke]

/-- Instance of C4 (amended) on the sample machine: the hypotheses hold there and the conclusion follows. -/
theorem second_lkm_exit_repeats_witness :
    K0.register_kprobe = 0 ∧ resolved K0 ≠ 0
      ∧ (lkm_exit P0 (lkm_init P0 K0 s0).2).mem (slot (resolved K0) P0.__NR_read)
          = s0.mem (slot (resolved K0) P0.__NR_read)
      ∧ (lkm_exit P0 (lkm_exit P0 (lkm_init P0 K0 s0).2)).mem
          = (lkm_exit P0 (lkm_init P0 K0 s0).2).mem
      ∧ (lkm_exit P0 (lkm_exit P0 (lkm_init P0 K0 s0).2)).log
          = (lkm_exit P0 (lkm_init P0 K0 s0).2).log ++
              [Event.write_cr0 (disable_wp (lkm_exit P0 (lkm_init P0 K0 s0).2)).cr0,
               Event.store (slot (resolved K0) P0.__NR_read)
                 (s0.mem (slot (resolved K0) P0.__NR_read)),
               Event.write_cr0
                 (enable_wp (disable_wp (lkm_exit P0 (lkm_init P0 K0 s0).2))).cr0] :=
  ⟨rfl, by decide, second_lkm_exit_repeats P0 K0 s0 rfl (by decide)⟩

/-! ## No sanity check of the resolved table -/

/-- C8 (as stated, refuted): on a machine where the resolved address is non-null
and the table's first entry is the null pointer, `lkm_init` does not fail: it
returns 0 and stores `hook_syscall_read` into `table[__NR_read]`. -/
theorem lkm_init_trusts_any_base :
    resolved K0 ≠ 0
      ∧ s_zeroed.mem (resolved K0) = 0
      ∧ (lkm_init P0 K0 s_zeroed).1 = 0
      ∧ (lkm_init P0 K0 s_zeroed).2.mem (slot (resolved K0) P0.__NR_read)
          = P0.hook_syscall_read
      ∧ Event.store (slot (resolved K0) P0.__NR_read) P0.hook_syscall_read
          ∈ (lkm_init P0 K0 s_zeroed).2.log := by
  have h := lkm_init_success P0 K0 s_zeroed rfl (by decide)
  refine ⟨by decide, rfl, by rw [h], ?_, ?_⟩
  · rw [h]
    exact poke_same s_zeroed.mem (slot (resolved K0) P0.__NR_read) P0.hook_syscall_read
  · rw [h]
    simp

/-- C8 (amended): the locator does not inspect the table.  For every non-null
address returned by the symbol lookup after a successful kprobe registration, and
for every value `first` held by the table's first entry, `lkm_init` returns 0 and
stores `hook_syscall_read` into `table[__NR_read]`. -/
theorem lkm_init_ignores_first_entry (P : Platform) (K : Kallsyms) (s : State) (first : Nat)
    (hreg : K.register_kprobe = 0) (hsct : resolved K ≠ 0) :
    (with_first_entry K first s).mem (slot (resolved K) 0) = first
      ∧ (lkm_init P K (with_first_entry K first s)).1 = 0
      ∧ (lkm_init P K (with_first_entry K first s)).2.mem (slot (resolved K) P.__NR_read)
          = P.hook_syscall_read
      ∧ Event.store (slot (resolved K) P.__NR_read) P.hook_syscall_read
          ∈ (lkm_init P K (with_first_entry K first s)).2.log := by
  rw [lkm_init_success P K _ hreg hsct]
  refine ⟨poke_same _ _ _, rfl, poke_same _ _ _, ?_⟩
  simp

/-- Instance of C8 (amended) on the sample machine: the hypotheses hold there and the conclusion follows. -/
theorem lkm_init_ignores_first_entry_witness :
    K0.register_kprobe = 0 ∧ resolved K0 ≠ 0
      ∧ (with_first_entry K0 0 s0).mem (slot (resolved K0) 0) = 0
      ∧ (lkm_init P0 K0 (with_first_entry K0 0 s0)).1 = 0
      ∧ (lkm_init P0 K0 (with_first_entry K0 0 s0)).2.mem (slot (resolved K0) P0.__NR_read)
          = P0.hook_syscall_read
      ∧ Event.store (slot (resolved K0) P0.__NR_read) P0.hook_syscall_read
          ∈ (lkm_init P0 K0 (with_first_entry K0 0 s0)).2.log :=
  ⟨rfl, by decide, lkm_init_ignores_first_entry P0 K0 s0 0 rfl (by decide)⟩

/-! ## The replacement forwards to the saved original -/

theorem call_kernel (P : Platform) (fuel : Nat) (s : State) (f regs : Nat)
    (hf : f ≠ P.hook_syscall_read) : call P (fuel + 1) s f regs = some (P.text f regs) := by
  simp [call, hf]

theorem call_hook (P : Platform) (fuel : Nat) (s : State) (regs : Nat) :
    call P (fuel + 1) s P.hook_syscall_read regs = call P fuel s s.old_syscall_read regs := by
  simp [call]

/-- C7: the replacement is a pure pass-through trampoline.  The module is loaded
against a table whose `__NR_read` entry is a kernel routine, not the module's own
`hook_syscall_read`.  In the state reached after a successful `lkm_init`, and
after any number `n` of further `lkm_init` calls (each of which is refused), for
every `regs` the call `hook_syscall_read(regs)` returns exactly what the entry
that was in `table[__NR_read]` before the install returns for `regs`; a call
dispatched through `table[__NR_read]` returns that same result before the
install, while installed, and after `lkm_exit`. -/
theorem hook_is_pass_through (P : Platform) (Kn : Kernel) (m : Module) (regs fuel n : Nat)
    (hpre : m.st.mem (slot (Kn.kallsyms_lookup_name "sys_call_table") P.__NR_read)
      ≠ P.hook_syscall_read)
    (hok : (lkm_init_kp P Kn m).1 = 0) :
    hook_syscall_read P (fuel + 1) (lkm_init_again P Kn n (lkm_init_kp P Kn m).2).st regs
        = some (P.text
            (m.st.mem (slot (Kn.kallsyms_lookup_name "sys_call_table") P.__NR_read)) regs)
      ∧ dispatch_read P (fuel + 1) (Kn.kallsyms_lookup_name "sys_call_table") m.st regs
        = some (P.text
            (m.st.mem (slot (Kn.kallsyms_lookup_name "sys_call_table") P.__NR_read)) regs)
      ∧ dispatch_read P (fuel + 2) (Kn.kallsyms_lookup_name "sys_call_table")
          (lkm_init_again P Kn n (lkm_init_kp P Kn m).2).st regs
        = some (P.text
            (m.st.mem (slot (Kn.kallsyms_lookup_name "sys_call_table") P.__NR_read)) regs)
      ∧ dispatch_read P (fuel + 1) (Kn.kallsyms_lookup_name "sys_call_table")
          (lkm_exit P (lkm_init_kp P Kn m).2.st) regs
        = some (P.text
            (m.st.mem (slot (Kn.kallsyms_lookup_name "sys_call_table") P.__NR_read)) regs) := by
  obtain ⟨h1, h2, h3, h4⟩ := lkm_init_kp_ok P Kn m hok
  obtain ⟨hkp, hmem, hold⟩ := lkm_init_kp_success P Kn m hok
  have hused : (lkm_init_kp P Kn m).2.kp_addr ≠ 0 := by rw [hkp]; exact h2
  obtain ⟨hmemn, holdn⟩ := lkm_init_again_used P Kn n (lkm_init_kp P Kn m).2 hused
  have hreg : (kallsyms_at Kn m.kp_addr).register_kprobe = 0 := by
    simp [kallsyms_at, register_kprobe, h1, h2, h3]
  have hsct : resolved (kallsyms_at Kn m.kp_addr) ≠ 0 := h4
  have hexit := congrFun (lkm_exit_lkm_init_mem P (kallsyms_at Kn m.kp_addr) m.st hreg hsct)
    (slot (Kn.kallsyms_lookup_name "sys_call_table") P.__NR_read)
  refine ⟨?_, ?_, ?_, ?_⟩
  · unfold hook_syscall_read
    rw [holdn, hold]
    exact call_kernel P fuel _ _ regs hpre
  · unfold dispatch_read
    exact call_kernel P fuel _ _ regs hpre
  · unfold dispatch_read
    rw [hmemn, hmem, poke_same, call_hook, holdn, hold]
    exact call_kernel P fuel _ _ regs hpre
  · unfold dispatch_read
    show call P (fuel + 1) _ ((lkm_exit P (lkm_init P (kallsyms_at Kn m.kp_addr) m.st).2).mem
      (slot (Kn.kallsyms_lookup_name "sys_call_table") P.__NR_read)) regs = _
    rw [hexit]
    exact call_kernel P fuel _ _ regs hpre

/-- Instance of C7 on the sample machine, for `regs = 7` and two further calls of
`lkm_init`: the hypotheses hold there and the conclusion follows. -/
theorem hook_is_pass_through_witness :
    m0.st.mem (slot (Kn0.kallsyms_lookup_name "sys_call_table") P0.__NR_read)
        ≠ P0.hook_syscall_read
      ∧ (lkm_init_kp P0 Kn0 m0).1 = 0
      ∧ hook_syscall_read P0 (0 + 1) (lkm_init_again P0 Kn0 2 (lkm_init_kp P0 Kn0 m0).2).st 7
        = some (P0.text
            (m0.st.mem (slot (Kn0.kallsyms_lookup_name "sys_call_table") P0.__NR_read)) 7)
      ∧ dispatch_read P0 (0 + 1) (Kn0.kallsyms_lookup_name "sys_call_table") m0.st 7
        = some (P0.text
            (m0.st.mem (slot (Kn0.kallsyms_lookup_name "sys_call_table") P0.__NR_read)) 7)
      ∧ dispatch_read P0 (0 + 2) (Kn0.kallsyms_lookup_name "sys_call_table")
          (lkm_init_again P0 Kn0 2 (lkm_init_kp P0 Kn0 m0).2).st 7
        = some (P0.text
            (m0.st.mem (slot (Kn0.kallsyms_lookup_name "sys_call_table") P0.__NR_read)) 7)
      ∧ dispatch_read P0 (0 + 1) (Kn0.kallsyms_lookup_name "sys_call_table")
          (lkm_exit P0 (lkm_init_kp P0 Kn0 m0).2.st) 7
        = some (P0.text
            (m0.st.mem (slot (Kn0.kallsyms_lookup_name "sys_call_table") P0.__NR_read)) 7) :=
  ⟨by decide, by decide, hook_is_pass_through P0 Kn0 m0 7 0 2 (by decide) (by decide)⟩

end SyscallHook

namespace CharDev

/-! ## At most one opener -/

/-- Relation between the flag and the number of successful opens not yet released. -/
theorem step_open_flag (x : Session)
    (h : (x.dev.already_open = 0 ∧ x.held = 0) ∨ (x.dev.already_open = 1 ∧ x.held = 1)) :
    ((step x Call.open).dev.already_open = 0 ∧ (step x Call.open).held = 0)
      ∨ ((step x Call.open).dev.already_open = 1 ∧ (step x Call.open).held = 1) := by
  rcases h with ⟨h1, h2⟩ | ⟨h1, h2⟩
  · right
    simp [step, device_open, atomic_cmpxchg, CDEV_NOT_USED, CDEV_EXCLUSIVE_OPEN, SUCCESS, h1, h2]
  · right
    simp [step, device_open, atomic_cmpxchg, CDEV_NOT_USED, CDEV_EXCLUSIVE_OPEN, EBUSY, h1, h2]

theorem step_release_flag (x : Session)
    (h : (x.dev.already_open = 0 ∧ x.held = 0) ∨ (x.dev.already_open = 1 ∧ x.held = 1))
    (hheld : 0 < x.held) :
    ((step x Call.release).dev.already_open = 0 ∧ (step x Call.release).held = 0)
      ∨ ((step x Call.release).dev.already_open = 1 ∧ (step x Call.release).held = 1) := by
  rcases h with ⟨_, h2⟩ | ⟨_, h2⟩
  · omega
  · left
    simp [step, device_release, CDEV_NOT_USED, h2]

theorem run_flag (cs : List Call) :
    ∀ (x : Session) (k : Nat),
      ((x.dev.already_open = 0 ∧ x.held = 0) ∨ (x.dev.already_open = 1 ∧ x.held = 1)) →
      release_follows_open x cs = true →
      (((run x (cs.take k)).dev.already_open = 0 ∧ (run x (cs.take k)).held = 0)
        ∨ ((run x (cs.take k)).dev.already_open = 1 ∧ (run x (cs.take k)).held = 1)) := by
  induction cs with
  | nil =>
    intro x k h _
    simpa [run] using h
  | cons c cs ih =>
    intro x k h hwf
    cases k with
    | zero => simpa [run] using h
    | succ k =>
      cases c with
      | «open» =>
        simp only [release_follows_open] at hwf
        simpa [run] using ih (step x Call.open) k (step_open_flag x h) hwf
      | release =>
        simp only [release_follows_open, Bool.and_eq_true, decide_eq_true_eq] at hwf
        simpa [run] using ih (step x Call.release) k (step_release_flag x h hwf.1) hwf.2

/-- C9: the device admits at most one opener.  `device_open` returns 0 and sets
`already_open` to `CDEV_EXCLUSIVE_OPEN` if and only if `already_open` was
`CDEV_NOT_USED`, and otherwise returns `-EBUSY` and leaves `already_open`
unchanged; hence after any number of calls of a sequence of opens and releases in
which every release is for a previously successful open, the number of successful
opens not yet released is at most one. -/
theorem at_most_one_opener (d : Device) (cs : List Call) (k : Nat)
    (hwf : release_follows_open loaded cs = true) :
    (((device_open d).1 = 0 ∧ (device_open d).2.already_open = CDEV_EXCLUSIVE_OPEN)
        ↔ d.already_open = CDEV_NOT_USED)
      ∧ (d.already_open ≠ CDEV_NOT_USED →
          (device_open d).1 = -EBUSY ∧ (device_open d).2.already_open = d.already_open)
      ∧ (run loaded (cs.take k)).held ≤ 1 := by
  refine ⟨?_, ?_, ?_⟩
  · by_cases h : d.already_open = 0
    · simp [device_open, atomic_cmpxchg, CDEV_NOT_USED, CDEV_EXCLUSIVE_OPEN, SUCCESS, h]
    · simp [device_open, atomic_cmpxchg, CDEV_NOT_USED, CDEV_EXCLUSIVE_OPEN, EBUSY, h]
  · intro h
    have h0 : d.already_open ≠ 0 := h
    simp [device_open, atomic_cmpxchg, CDEV_NOT_USED, h0]
  · have h := run_flag cs loaded k (Or.inl ⟨rfl, rfl⟩) hwf
    rcases h with ⟨_, h⟩ | ⟨_, h⟩ <;> omega

/-- Instance of C9 on the loaded device and the calls open, open, release, open: the hypotheses hold there and the conclusion follows. -/
theorem at_most_one_opener_witness :
    release_follows_open loaded [Call.open, Call.open, Call.release, Call.open] = true
      ∧ (((device_open loaded.dev).1 = 0
            ∧ (device_open loaded.dev).2.already_open = CDEV_EXCLUSIVE_OPEN)
          ↔ loaded.dev.already_open = CDEV_NOT_USED)
      ∧ (loaded.dev.already_open ≠ CDEV_NOT_USED →
          (device_open loaded.dev).1 = -EBUSY
            ∧ (device_open loaded.dev).2.already_open = loaded.dev.already_open)
      ∧ (run loaded ([Call.open, Call.open, Call.release, Call.open].take 2)).held ≤ 1 :=
  ⟨by decide,
    at_most_one_opener loaded.dev [Call.open, Call.open, Call.release, Call.open] 2 (by decide)⟩

/-! ## Transfer length of read and write -/

/-- For an offset inside the buffer the computed length is the smaller of the room
left and the requested count. -/
theorem transfer_len_inside (offset : Int) (count : Nat)
    (h0 : 0 ≤ offset) (h1 : offset ≤ BUFFER_LEN) (hc : count < 2 ^ 64) :
    transfer_len offset count = min (BUFFER_LEN - offset) (count : Int) := by
  unfold BUFFER_LEN at h1 ⊢
  unfold transfer_len min_loff_size toS64 toU64 BUFFER_LEN
  have hu : ((255 - offset) % (2 ^ 64 : Int)).toNat = (255 - offset).toNat := by
    rw [Int.emod_eq_of_lt (by omega) (by omega)]
  rw [hu, Nat.mod_eq_of_lt hc]
  by_cases hlt : (255 - offset).toNat < count
  · rw [if_pos hlt]
    have h2 : (255 - offset).toNat % 2 ^ 64 = (255 - offset).toNat := Nat.mod_eq_of_lt (by omega)
    rw [h2, if_pos (by omega)]
    omega
  · rw [if_neg hlt]
    have h2 : count % 2 ^ 64 = count := Nat.mod_eq_of_lt hc
    rw [h2, if_pos (by omega)]
    omega

/-- For an offset past the end of the buffer the computed length is the whole
requested count. -/
theorem transfer_len_past_end (offset : Int) (count : Nat)
    (h0 : BUFFER_LEN < offset) (h1 : offset < 2 ^ 63) (hc : count < 2 ^ 63) :
    transfer_len offset count = (count : Int) := by
  unfold BUFFER_LEN at h0
  have hu : ((255 - offset) % (2 ^ 64 : Int)).toNat = (2 ^ 64 - (offset - 255)).toNat := by
    have : (255 - offset) % (2 ^ 64 : Int) = 2 ^ 64 - (offset - 255) := by omega
    rw [this]
  have hcm : count % 2 ^ 64 = count := Nat.mod_eq_of_lt (by omega)
  have hmin : min_loff_size (BUFFER_LEN - offset) count = count := by
    unfold min_loff_size toU64 BUFFER_LEN
    rw [hu, hcm, if_neg (by omega)]
  unfold transfer_len
  rw [hmin]
  unfold toS64
  rw [hcm, if_pos (by omega)]

/-- C10 (evaluation at the failing input): with the file offset at 256, one past the
last valid position of the 255-byte buffer, a one-byte `device_write` returns 1,
advances the offset to 257 and stores the user byte at index 256, outside the
buffer; a one-byte `device_read` returns 1, advances the offset to 257 and hands
the byte at index 256, outside the buffer, to the user. -/
theorem device_write_read_past_buffer_end :
    ¬ ((256 : Int) < BUFFER_LEN)
      ∧ (device_write kmem_sample user_sample 1 256).ret = 1
      ∧ (device_write kmem_sample user_sample 1 256).offset = 257
      ∧ kmem_sample 256 = 0xAA
      ∧ (device_write kmem_sample user_sample 1 256).kmem 256 = 0x41
      ∧ (device_read kmem_sample user_sample 1 256).ret = 1
      ∧ (device_read kmem_sample user_sample 1 256).offset = 257
      ∧ (device_read kmem_sample user_sample 1 256).user 0 = some (kmem_sample 256) := by
  decide

end CharDev
